import Mathlib

/-!
Verification of the `table-to-xlsx` HTML-table → spreadsheet conversion engine.

Shallow embedding of the core of `src/index.ts` (class `TableToXlsx`):
the parsed-table data model, the span-attribute parsing, the grid layout
engine (`createExcelData` / `convertToSimpleData`), the reduced-fidelity
large-table path (`convertLargeTable`), the styling passes (`applyStyling`,
`applyMinimalStyling`), the column-width estimator
(`calculateOptimizedColumnWidths`), and the streaming processor returned by
`createStreamProcessor` (`writeHeader` / `writeRow` / `writeChunk` /
`finalize` / `getProcessedRows`).

Modelling conventions:
* The HTML/DOM collaborator (cheerio) is outside the core: operations that
  in the source receive an HTML string and immediately parse it into rows of
  cells are embedded as operations receiving the already-parsed rows, with
  the per-row bookkeeping (`cells.length > 0` guards, counters) translated
  from the source.
* JavaScript numbers used for spans are modelled as `Int` inside the layout
  engine; the result of `parseInt` on an attribute string is modelled
  separately as `Option Int`, `none` standing for JavaScript's `NaN`
  (the source stores that parse result in the cell without normalization).
* JavaScript array reads out of range yield `undefined`; the layout engine's
  occupancy test `slot !== ''` is therefore true for out-of-range reads,
  which the embedding reproduces via `Option`.
* Worksheet dictionaries (`worksheet[addr].s`, `!merges`, `!cols`, `!rows`)
  are modelled as explicit fields / functions on a worksheet record.
-/

namespace TableToXlsx

/-- The recognized per-cell style record (`TableCell.styles` in the source).
The TS string-literal union types are modelled as `String`. -/
structure Styles where
  backgroundColor : Option String := none
  textAlign : Option String := none
  fontSize : Option Int := none
  fontWeight : Option String := none
  color : Option String := none
  borderColor : Option String := none
  borderStyle : Option String := none
deriving DecidableEq, Repr

/-- A parsed table cell (`TableCell` in the source).  Spans are the numeric
values stored by the parser; the NaN case of `parseInt` is modelled at the
parsing stage (`parsedSpan`), the engine-level cell carries integers. -/
structure TableCell where
  content : String
  colspan : Int
  rowspan : Int
  isHeader : Bool
  styles : Option Styles := none
deriving DecidableEq, Repr

/-- A parsed table row (`TableRow` in the source). -/
structure TableRow where
  cells : List TableCell
deriving DecidableEq, Repr

/-- Parsed table (`TableData` in the source): rows plus the maximum
authored-cell count across rows. -/
structure TableData where
  rows : List TableRow
  maxCols : Nat
deriving DecidableEq, Repr

/-! ## Span-attribute parsing

The source computes `parseInt($cell.attr('colspan') || '1')` (index.ts
lines 133/134, 162/163, 490/491).  `parseInt` is modelled for decimal
inputs: leading whitespace is skipped, an optional sign is read, then
leading decimal digits; if no digit follows, the JS result is `NaN`,
modelled as `none`. -/

/-- Digits-to-number fold used by `parseIntJS`. -/
def digitsToNat (ds : List Char) : Nat :=
  ds.foldl (fun acc c => acc * 10 + (c.toNat - '0'.toNat)) 0

/-- Leading-whitespace characters skipped by `parseInt`. -/
def jsWhitespace (c : Char) : Bool :=
  c = ' ' ∨ c = '\t' ∨ c = '\n' ∨ c = '\r'

/-- Model of JavaScript `parseInt` on decimal inputs: `none` is `NaN`. -/
def parseIntJS (s : String) : Option Int :=
  let t := s.data.dropWhile jsWhitespace
  let (neg, rest) :=
    match t with
    | '-' :: cs => (true, cs)
    | '+' :: cs => (false, cs)
    | cs => (false, cs)
  let digits := rest.takeWhile Char.isDigit
  if digits.isEmpty then none
  else
    let n : Int := Int.ofNat (digitsToNat digits)
    some (if neg then -n else n)

/-- The span value the parser stores for a cell, from the raw attribute:
`parseInt($cell.attr('colspan') || '1')`.  A missing attribute and an empty
attribute string are both falsy in JS, so both fall back to `'1'`.
`none` in the result is JavaScript's `NaN`, stored unnormalized. -/
def parsedSpan (attr : Option String) : Option Int :=
  match attr with
  | none => parseIntJS "1"
  | some s => if s = "" then parseIntJS "1" else parseIntJS s

/-! ## Grid layout engine (`createExcelData`, index.ts lines 679-730) -/

/-- A slot of the dense grid: the initial `''` fill, or a written object
`{ content, styles }`. -/
inductive Slot where
  | empty : Slot
  | cell (content : String) (styles : Option Styles) : Slot
deriving DecidableEq, Repr

/-- A merge region `{ s: {r, c}, e: {r, c} }`. -/
structure MergeRegion where
  sr : Int
  sc : Int
  er : Int
  ec : Int
deriving DecidableEq, Repr

/-- In-place update of list element `n` (JS `a[n] = v` for `n` in range). -/
def updateNth (l : List α) (n : Nat) (v : α) : List α :=
  match l, n with
  | [], _ => []
  | _ :: t, 0 => v :: t
  | a :: t, n + 1 => a :: updateNth t n v

/-- The write `excelData[r][c] = v` on the grid (both indexes in range in the source
whenever executed). -/
def setSlot (g : List (List Slot)) (r c : Nat) (v : Slot) : List (List Slot) :=
  updateNth g r (updateNth (g.getD r []) c v)

/-- JS read `row[col]` with an `Int` index: out-of-range (including
negative) reads give `undefined`, modelled as `none`. -/
def jsSlotGet (row : List Slot) (col : Int) : Option Slot :=
  if 0 ≤ col then row.get? col.toNat else none

/-- The occupancy test `excelData[rowIndex][currentCol] !== ''`:
`undefined !== ''` holds, so only an in-range `''` slot counts as free. -/
def slotOccupied (row : List Slot) (col : Int) : Bool :=
  jsSlotGet row col ≠ some Slot.empty

/-- The cursor-advancing loop
`while (currentCol < maxCols && excelData[rowIndex][currentCol] !== '') currentCol++`,
structurally recursive on the remaining distance to `maxCols` (each
iteration has `col < maxCols`, so the loop runs at most
`(maxCols - col).toNat` times). -/
def skipOccupiedAux (row : List Slot) (maxCols : Int) : Nat → Int → Int
  | 0, col => col
  | fuel + 1, col =>
    if col < maxCols ∧ slotOccupied row col then
      skipOccupiedAux row maxCols fuel (col + 1)
    else col

/-- The while loop of `createExcelData` (lines 693-695). -/
def skipOccupied (row : List Slot) (maxCols : Int) (col : Int) : Int :=
  skipOccupiedAux row maxCols (maxCols - col).toNat col

/-- The placeholder-marking double loop of `createExcelData`
(lines 713-723): every slot of the span rectangle other than its corner is
overwritten with `{ content: '', styles: cell.styles }`, guarded by the
grid bounds (`excelData.length`, `excelData[0].length`). -/
def fillPlaceholders (g : List (List Slot)) (rowIndex : Nat) (currentCol : Int)
    (cell : TableCell) : List (List Slot) :=
  (List.range cell.rowspan.toNat).foldl (fun g r =>
    (List.range cell.colspan.toNat).foldl (fun g c =>
      if r = 0 ∧ c = 0 then g
      else if rowIndex + r < g.length ∧ currentCol + c < ((g.headD []).length : Int) then
        setSlot g (rowIndex + r) (currentCol + c).toNat (Slot.cell "" cell.styles)
      else g) g) g

/-- State of the layout engine while processing one row. -/
structure RowState where
  g : List (List Slot)
  col : Int
  merges : List MergeRegion
  dropped : Nat
deriving Repr

/-- Processing of a single authored cell inside the per-row loop of
`createExcelData` (lines 692-726): advance the cursor over occupied slots;
if it reached `maxCols` the cell is silently skipped (`return`) — the
`dropped` counter instruments that skip; otherwise write the cell,
push a merge when `colspan > 1 || rowspan > 1`, mark the placeholder
rectangle, and advance the cursor by `colspan`. -/
def placeCell (maxCols : Nat) (rowIndex : Nat) (st : RowState)
    (cell : TableCell) : RowState :=
  let col := skipOccupied (st.g.getD rowIndex []) (maxCols : Int) st.col
  if (maxCols : Int) ≤ col then
    { st with col := col, dropped := st.dropped + 1 }
  else
    let g1 := setSlot st.g rowIndex col.toNat (Slot.cell cell.content cell.styles)
    let merges1 :=
      if 1 < cell.colspan ∨ 1 < cell.rowspan then
        st.merges ++ [⟨(rowIndex : Int), col, (rowIndex : Int) + cell.rowspan - 1,
                       col + cell.colspan - 1⟩]
      else st.merges
    let g2 := fillPlaceholders g1 rowIndex col cell
    { g := g2, col := col + cell.colspan, merges := merges1, dropped := st.dropped }

/-- Accumulated state of the layout engine across rows. -/
structure GridState where
  g : List (List Slot)
  merges : List MergeRegion
  dropped : Nat
deriving Repr

/-- Processing of one row of `createExcelData`: the row's cells are laid
out left to right starting from cursor 0. -/
def processRow (maxCols : Nat) (st : GridState) (rowIndex : Nat)
    (row : TableRow) : GridState :=
  let fin := row.cells.foldl (placeCell maxCols rowIndex)
    { g := st.g, col := 0, merges := st.merges, dropped := st.dropped }
  { g := fin.g, merges := fin.merges, dropped := fin.dropped }

/-- The `forEach` over rows of `createExcelData`, threading the row index. -/
def layoutRows (maxCols : Nat) : Nat → GridState → List TableRow → GridState
  | _, st, [] => st
  | i, st, r :: rs => layoutRows maxCols (i + 1) (processRow maxCols st i r) rs

/-- Function `createExcelData` (lines 679-730): the grid is pre-filled with
`rows.length` rows of `maxCols` copies of `''`, then every row is laid out
in order.  The extra `dropped` field counts the cells silently skipped by
the `currentCol >= maxCols` early return. -/
def createExcelData (td : TableData) : GridState :=
  let init : List (List Slot) := td.rows.map (fun _ => List.replicate td.maxCols Slot.empty)
  layoutRows td.maxCols 0 { g := init, merges := [], dropped := 0 } td.rows

/-- Function `convertToSimpleData` (lines 668-677): objects are replaced by their
`content`, the plain `''` fills pass through. -/
def convertToSimpleData (g : List (List Slot)) : List (List String) :=
  g.map (fun row => row.map (fun s =>
    match s with
    | Slot.empty => ""
    | Slot.cell c _ => c))

/-! ## Large-table path (`convertLargeTable`, index.ts lines 399-470)

The source processes `tableData.rows` in chunks of 1000, but the chunks
partition the rows in order and `actualRowIndex = chunkStart + rowIndex`,
so the computation is a per-row map: each row gets a fresh
`new Array(maxCols).fill('')` row buffer (no cross-row placeholders on this
path), and merges are pushed only when `actualRowIndex < 100`. -/

/-- JS read `rowData[col]` with an `Int` index on the plain-string row
buffer of the large-table path. -/
def jsStrGet (row : List String) (col : Int) : Option String :=
  if 0 ≤ col then row.get? col.toNat else none

/-- Occupancy test `rowData[currentCol] !== ''` (`undefined !== ''` holds). -/
def strOccupied (row : List String) (col : Int) : Bool :=
  jsStrGet row col ≠ some ""

/-- The loop `while (currentCol < maxCols && rowData[currentCol] !== '') currentCol++`
(line 421), structurally recursive on the remaining distance to `maxCols`. -/
def skipOccupiedStrAux (row : List String) (maxCols : Int) : Nat → Int → Int
  | 0, col => col
  | fuel + 1, col =>
    if col < maxCols ∧ strOccupied row col then
      skipOccupiedStrAux row maxCols fuel (col + 1)
    else col

/-- The while loop of the large-table row layout (line 421). -/
def skipOccupiedStr (row : List String) (maxCols : Int) (col : Int) : Int :=
  skipOccupiedStrAux row maxCols (maxCols - col).toNat col

/-- Per-cell step of the large-table row loop (lines 420-438). -/
def placeCellLarge (maxCols : Nat) (actualRowIndex : Nat)
    (st : List String × Int × List MergeRegion) (cell : TableCell) :
    List String × Int × List MergeRegion :=
  let (rowData, col0, merges) := st
  let col := skipOccupiedStr rowData (maxCols : Int) col0
  if (maxCols : Int) ≤ col then (rowData, col, merges)
  else
    let rowData1 := updateNth rowData col.toNat cell.content
    let merges1 :=
      if actualRowIndex < 100 ∧ (1 < cell.colspan ∨ 1 < cell.rowspan) then
        merges ++ [⟨(actualRowIndex : Int), col, (actualRowIndex : Int) + cell.rowspan - 1,
                    col + cell.colspan - 1⟩]
      else merges
    (rowData1, col + cell.colspan, merges1)

/-- Layout of one row on the large-table path: fresh `maxCols`-wide buffer,
cursor from 0, merges tracked only below row index 100. -/
def largeRowLayout (maxCols : Nat) (actualRowIndex : Nat) (row : TableRow) :
    List String × List MergeRegion :=
  let fin := row.cells.foldl (placeCellLarge maxCols actualRowIndex)
    (List.replicate maxCols "", 0, [])
  (fin.1, fin.2.2)

/-- The per-row iteration of `convertLargeTable`, threading
`actualRowIndex`. -/
def largeRows (maxCols : Nat) : Nat → List TableRow → List (List String × List MergeRegion)
  | _, [] => []
  | i, r :: rs => largeRowLayout maxCols i r :: largeRows maxCols (i + 1) rs

/-- The grid (`simpleData`) and merge list built by `convertLargeTable`. -/
def convertLargeData (td : TableData) : List (List String) × List MergeRegion :=
  let processed := largeRows td.maxCols 0 td.rows
  (processed.map Prod.fst, (processed.map Prod.snd).flatten)

/-! ## Column widths (`calculateOptimizedColumnWidths`, lines 871-893) -/

/-- Function `calculateOptimizedColumnWidths`: sample at most the first 1000 rows,
take the longest stringified content per column (`row[colIndex]` is
truthy only for a present non-empty string) and clamp
`maxLength + 2` to `[10, 50]`.  Widths are the `wch` values. -/
def calculateOptimizedColumnWidths (simpleData : List (List String))
    (maxCols : Nat) : List Nat :=
  let sampleSize := min 1000 simpleData.length
  (List.range maxCols).map (fun colIndex =>
    let maxLength := (List.range sampleSize).foldl (fun m rowIndex =>
      match simpleData.get? rowIndex with
      | some row =>
        match row.get? colIndex with
        | some v => if v ≠ "" then max m v.length else m
        | none => m
      | none => m) 0
    min (max (maxLength + 2) 10) 50)

/-- The `maxCols` argument passed to the width computation at the call
sites (lines 743, 792): `tableData?.maxCols || simpleData[0]?.length || 1`
with JavaScript falsiness on `0`. -/
def colWidthsArg (tableData : Option TableData) (simpleData : List (List String)) : Nat :=
  match tableData with
  | some td => if td.maxCols ≠ 0 then td.maxCols
               else if (simpleData.headD []).length ≠ 0 then (simpleData.headD []).length
               else 1
  | none => if (simpleData.headD []).length ≠ 0 then (simpleData.headD []).length else 1

/-- Column widths of the full (non-large-table) output paths
(`createExcelFile` line 743 and `createExcelBuffer` line 792): both call
the same sampled, clamped `calculateOptimizedColumnWidths`. -/
def fullPathColWidths (td : TableData) : List Nat :=
  let simpleData := convertToSimpleData (createExcelData td).g
  calculateOptimizedColumnWidths simpleData (colWidthsArg (some td) simpleData)

/-! ## Styling passes (`applyStyling` lines 921-976,
`applyMinimalStyling` lines 836-866) -/

/-- One side of the border style object. -/
structure BorderSide where
  style : String
  color : Option String
deriving DecidableEq, Repr

/-- The four-sided border object. -/
structure CellBorder where
  top : BorderSide
  bottom : BorderSide
  left : BorderSide
  right : BorderSide
deriving DecidableEq, Repr

/-- The cell style object written to `worksheet[addr].s` by `applyStyling`. -/
structure CellStyle where
  horizontal : String
  vertical : String
  wrapText : Bool
  bold : Bool
  sz : Int
  fontColor : Option String
  fill : String
  border : Option CellBorder
deriving DecidableEq, Repr

/-- JavaScript `a || d` for an optional string (empty string is falsy). -/
def jsOrStr (o : Option String) (d : String) : String :=
  match o with
  | some s => if s = "" then d else s
  | none => d

/-- Function `getCellData` (lines 643-666): prefer the grid object at `[row][col]`
when an `excelData` grid is supplied and the slot is truthy (a written
object; the `''` fill is falsy), else fall back to indexing the authored
cells of `tableData.rows[row]` by the *column* index. -/
def getCellData (row col : Nat) (tableData : Option TableData)
    (excelData : Option (List (List Slot))) : Option (String × Option Styles) :=
  let fromGrid : Option (String × Option Styles) :=
    match excelData with
    | some g =>
      match (g.getD row []).get? col with
      | some (Slot.cell c st) => some (c, st)
      | _ => none
    | none => none
  match fromGrid with
  | some v => some v
  | none =>
    match tableData with
    | none => none
    | some td =>
      match td.rows.get? row with
      | none => none
      | some r =>
        match r.cells.get? col with
        | none => none
        | some cell => some (cell.content, cell.styles)

/-- The style object `applyStyling` builds for one cell (lines 934-971):
centered unless overridden, wrapped text, font from the custom styles with
JS-falsy defaults, white fill default, and a border object with `thin`
default sides unless `borderStyle` is `none`. -/
def buildCellStyle (customStyles : Option Styles) : CellStyle :=
  let textAlign := customStyles.bind (fun s => s.textAlign)
  let fontWeight := customStyles.bind (fun s => s.fontWeight)
  let fontSize := customStyles.bind (fun s => s.fontSize)
  let fontColor := customStyles.bind (fun s => s.color)
  let bg := customStyles.bind (fun s => s.backgroundColor)
  let borderStyle := customStyles.bind (fun s => s.borderStyle)
  let borderColor := customStyles.bind (fun s => s.borderColor)
  { horizontal := jsOrStr textAlign "center"
  , vertical := "center"
  , wrapText := true
  , bold := fontWeight = some "bold"
  , sz := match fontSize with
          | some n => if n = 0 then 11 else n
          | none => 11
  , fontColor := fontColor
  , fill := jsOrStr bg "FFFFFF"
  , border :=
      if borderStyle = some "none" then none
      else
        let side : BorderSide := ⟨jsOrStr borderStyle "thin", borderColor⟩
        some ⟨side, side, side, side⟩ }

/-- Row extent of the worksheet range decoded from `!ref` after
`aoa_to_sheet(simpleData)` (an empty sheet decodes the `'A1'` default,
hence the `max · 1`). -/
def sheetNumRows (simpleData : List (List String)) : Nat :=
  max simpleData.length 1

/-- Column extent of the worksheet range decoded from `!ref`. -/
def sheetNumCols (simpleData : List (List String)) : Nat :=
  max ((simpleData.map List.length).foldr max 0) 1

/-- Function `applyStyling` (lines 921-976): every cell of the decoded range —
all rows, all columns — receives a style object built from `getCellData`.
The result maps a coordinate to the `.s` object assigned there. -/
def applyStyling (simpleData : List (List String)) (tableData : Option TableData)
    (excelData : Option (List (List Slot))) : Nat → Nat → Option CellStyle :=
  fun r c =>
    if r < sheetNumRows simpleData ∧ c < sheetNumCols simpleData then
      some (buildCellStyle ((getCellData r c tableData excelData).bind (fun p => p.2)))
    else none

/-- The style object of `applyMinimalStyling` (lines 851-861). -/
structure MinimalCellStyle where
  horizontal : String
  vertical : String
  bold : Bool
  size : Int
  fill : String
  borderStyle : String
deriving DecidableEq, Repr

/-- Function `applyMinimalStyling` (lines 836-866): only rows
`0 ≤ R ≤ min(10, range.e.r)` receive a style object; it is defined in the
source but never called. -/
def applyMinimalStyling (simpleData : List (List String)) :
    Nat → Nat → Option MinimalCellStyle :=
  let maxStyledRows := min 10 (sheetNumRows simpleData - 1)
  fun r c =>
    if r ≤ maxStyledRows ∧ c < sheetNumCols simpleData then
      some { horizontal := "center", vertical := "center"
           , bold := r = 0, size := 11
           , fill := if r = 0 then "F0F0F0" else "FFFFFF"
           , borderStyle := "thin" }
    else none

/-- The worksheet assembled by `convertLargeTable` (lines 449-461):
grid, merges, a styling pass, sampled column widths, and *no* `!rows`
row-height hints (the row-height computation is skipped, line 458). -/
structure LargeWorksheet where
  simpleData : List (List String)
  merges : List MergeRegion
  styleAt : Nat → Nat → Option CellStyle
  cols : List Nat
  rowHeights : Option (List Int)

/-- Function `convertLargeTable` (lines 399-470).  Note line 452: the styling pass
invoked is the full `applyStyling(worksheet, tableData)` over the whole
range — `applyMinimalStyling` is never called — and `!rows` is never
assigned. -/
def convertLargeTable (td : TableData) : LargeWorksheet :=
  let p := convertLargeData td
  { simpleData := p.1
  , merges := p.2
  , styleAt := applyStyling p.1 (some td) none
  , cols := calculateOptimizedColumnWidths p.1 td.maxCols
  , rowHeights := none }

/-- The routing test of `convert` (line 67) and `finalize` (line 228):
`tableData.rows.length > LARGE_TABLE_THRESHOLD` with the threshold 10000. -/
def LARGE_TABLE_THRESHOLD : Nat := 10000

/-- Whether the conversion takes the reduced-fidelity large-table path. -/
def usesLargeTablePath (td : TableData) : Bool :=
  decide (LARGE_TABLE_THRESHOLD < td.rows.length)

/-! ## Streaming processor (`createStreamProcessor`, lines 112-254)

The closure state (`headerProcessed`, `rowCount`, `allRows`, `maxCols`,
`chunkNumber`) becomes an explicit record; each operation receives the rows
the cheerio collaborator parses from its HTML argument and returns the new
state plus the list of `onChunk` invocations `(chunkNumber, processedRows)`
it performs.  A thrown `Error` is an `Except.error` carrying the message;
the closure state is unmodified in that case (the `throw` precedes every
mutation). -/

/-- Streaming options relevant to the core (`chunkSize`). -/
structure StreamOptions where
  chunkSize : Option Nat := none
deriving DecidableEq, Repr

/-- The chunk size `options.chunkSize || 1000` (line 118), with JS falsiness on `0`. -/
def resolveChunkSize (o : StreamOptions) : Nat :=
  match o.chunkSize with
  | none => 1000
  | some 0 => 1000
  | some n => n

/-- The mutable closure state of `createStreamProcessor`. -/
structure StreamState where
  headerProcessed : Bool := false
  rowCount : Nat := 0
  allRows : List TableRow := []
  maxCols : Nat := 0
  chunkNumber : Nat := 0
deriving DecidableEq, Repr

/-- The state at processor creation (lines 113-117). -/
def initialStreamState : StreamState := {}

/-- An `onChunk(chunkNumber, processedRows)` invocation. -/
abbrev ChunkEvent := Nat × Nat

/-- The row-accumulation loop shared by the three write operations:
rows with a nonempty cell list are appended, `maxCols` updated, and
(except in `writeHeader`) `rowCount` incremented. -/
def accumulateRows (countRows : Bool) (s : StreamState)
    (parsedRows : List TableRow) : StreamState :=
  parsedRows.foldl (fun st row =>
    if row.cells ≠ [] then
      { st with allRows := st.allRows ++ [row]
              , maxCols := max st.maxCols row.cells.length
              , rowCount := if countRows then st.rowCount + 1 else st.rowCount }
    else st) s

/-- Operation `writeHeader` (lines 120-147): fails when a header was already
processed; otherwise accumulates the header rows (without touching
`rowCount`) and sets `headerProcessed`. -/
def writeHeader (s : StreamState) (parsedRows : List TableRow) :
    Except String StreamState :=
  if s.headerProcessed then Except.error "Header already processed"
  else
    Except.ok { accumulateRows false s parsedRows with headerProcessed := true }

/-- Operation `writeRow` (lines 149-181): fails before the header; otherwise
accumulates the parsed rows and fires `onChunk` exactly when
`rowCount % chunkSize === 0` after the loop. -/
def writeRow (opts : StreamOptions) (s : StreamState)
    (parsedRows : List TableRow) : Except String (StreamState × List ChunkEvent) :=
  if ¬ s.headerProcessed then
    Except.error "Header must be processed before writing rows"
  else
    let s1 := accumulateRows true s parsedRows
    if s1.rowCount % resolveChunkSize opts = 0 then
      Except.ok ({ s1 with chunkNumber := s1.chunkNumber + 1 },
                 [(s1.chunkNumber + 1, s1.rowCount)])
    else
      Except.ok (s1, [])

/-- Operation `writeChunk` (lines 183-215): fails before the header; otherwise
accumulates the parsed rows and then *unconditionally* increments
`chunkNumber` and fires `onChunk` (lines 209-210). -/
def writeChunk (s : StreamState) (parsedRows : List TableRow) :
    Except String (StreamState × List ChunkEvent) :=
  if ¬ s.headerProcessed then
    Except.error "Header must be processed before writing chunks"
  else
    let s1 := accumulateRows true s parsedRows
    Except.ok ({ s1 with chunkNumber := s1.chunkNumber + 1 },
               [(s1.chunkNumber + 1, s1.rowCount)])

/-- Operation `finalize` (lines 217-241): fails without a header; otherwise yields
the accumulated `TableData` handed to the conversion pipeline. -/
def finalize (s : StreamState) : Except String TableData :=
  if ¬ s.headerProcessed then Except.error "No header data processed"
  else Except.ok { rows := s.allRows, maxCols := s.maxCols }

/-- Operation `getProcessedRows` (lines 243-245). -/
def getProcessedRows (s : StreamState) : Nat :=
  s.rowCount

/-- Caller-side semantics of a thrown `writeHeader` error: the closure
state is left as it was. -/
def applyWriteHeader (s : StreamState) (parsedRows : List TableRow) : StreamState :=
  match writeHeader s parsedRows with
  | Except.ok s' => s'
  | Except.error _ => s

/-- A sequence of `writeRow` calls, each carrying the rows parsed from one
`rowHtml` argument, with all `onChunk` invocations collected in order. -/
def runWriteRows (opts : StreamOptions) (s : StreamState) :
    List (List TableRow) → Except String (StreamState × List ChunkEvent)
  | [] => Except.ok (s, [])
  | call :: rest =>
    Except.bind (writeRow opts s call) (fun p =>
      Except.bind (runWriteRows opts p.1 rest) (fun q =>
        Except.ok (q.1, p.2 ++ q.2)))

/-! ## Derived definitions and example inputs -/

/-- Spec-side formulation of the sampled per-column maximum content
length: the longest entry of column `colIndex` among the first
`min 1000 (row count)` rows. -/
def sampledColMaxLen (simpleData : List (List String)) (colIndex : Nat) : Nat :=
  ((simpleData.take (min 1000 simpleData.length)).map
    (fun row => (row.getD colIndex "").length)).foldl max 0

/-- The grid object `{ content, styles }` written for an authored cell. -/
def toSlot (c : TableCell) : Slot :=
  Slot.cell c.content c.styles

/-- The grid row produced for a span-free authored row: its cells in
order, padded with the untouched `''` fill up to `maxCols`. -/
def rowSlots (m : Nat) (r : TableRow) : List Slot :=
  r.cells.map toSlot ++ List.replicate (m - r.cells.length) Slot.empty

/-- Whether an authored cell triggers a `MergeRegion`
(`colspan > 1 || rowspan > 1`). -/
def isSpanning (c : TableCell) : Bool :=
  decide (1 < c.colspan ∨ 1 < c.rowspan)

/-- The `onChunk` events produced by `n` single-row `writeRow` calls
starting from accumulated row count `r` with chunk size `cs`: one event at
every multiple of `cs`. -/
def writeEvents (cs r n : Nat) : List ChunkEvent :=
  (List.range n).filterMap (fun j =>
    if (r + j + 1) % cs = 0 then some ((r + j + 1) / cs, r + j + 1) else none)

/-- A plain data cell with the given content and no spans or styling. -/
def plainCell (s : String) : TableCell :=
  ⟨s, 1, 1, false, none⟩

/-- A plain header cell with the given content and no spans or styling. -/
def headerCell (s : String) : TableCell :=
  ⟨s, 1, 1, true, none⟩

/-- Scenario 1 of the specification:
`<table><tr><th>Name</th><th>Age</th></tr><tr><td>John</td><td>30</td></tr></table>`
as parsed. -/
def scenario1Table : TableData :=
  ⟨[⟨[headerCell "Name", headerCell "Age"]⟩,
    ⟨[plainCell "John", plainCell "30"]⟩], 2⟩

/-- A 2-column table whose first row is a single `colspan="2"` cell. -/
def spanExampleTable : TableData :=
  ⟨[⟨[⟨"Title", 2, 1, true, none⟩]⟩, ⟨[plainCell "a", plainCell "b"]⟩], 2⟩

/-- A 1×1 table holding the single character `x`. -/
def singleCellTable : TableData :=
  ⟨[⟨[plainCell "x"]⟩], 1⟩

/-- A row of two `colspan="2"` cells (two spanning cells per row). -/
def doubleSpanRow : TableRow :=
  ⟨[⟨"a", 2, 1, false, none⟩, ⟨"b", 2, 1, false, none⟩]⟩

/-- A plain four-cell row with no spans. -/
def plainFourRow : TableRow :=
  ⟨[plainCell "w", plainCell "x", plainCell "y", plainCell "z"]⟩

/-- A 15000-row table whose first 100 rows each hold two spanning cells:
200 spanning cells at row indexes below 100. -/
def mergeHeavyLargeTable : TableData :=
  ⟨List.replicate 100 doubleSpanRow ++ List.replicate 14900 plainFourRow, 4⟩

/-- A 10001-row single-column table (just above the large-table
threshold). -/
def singleColLargeTable : TableData :=
  ⟨List.replicate 10001 ⟨[plainCell "v"]⟩, 1⟩

/-- A one-cell header row for streaming examples. -/
def headerRowEx : TableRow :=
  ⟨[headerCell "H"]⟩

/-- A one-cell data row for streaming examples. -/
def dataRowEx : TableRow :=
  ⟨[plainCell "d"]⟩

/-! ## Helper lemmas -/

theorem updateNth_length (l : List α) (n : Nat) (v : α) :
    (updateNth l n v).length = l.length := by
  induction l generalizing n with
  | nil => rfl
  | cons a t ih =>
    cases n with
    | zero => rfl
    | succ n => simp [updateNth, ih]

theorem updateNth_get?_self (l : List α) (n : Nat) (v : α)
    (h : l.get? n = some v) : updateNth l n v = l := by
  induction l generalizing n with
  | nil => rfl
  | cons a t ih =>
    cases n with
    | zero => simp_all [updateNth]
    | succ n => simp_all [updateNth, ih]

theorem updateNth_get?_eq (l : List α) (n : Nat) (v : α) (h : n < l.length) :
    (updateNth l n v).get? n = some v := by
  induction l generalizing n with
  | nil => simp at h
  | cons a t ih =>
    cases n with
    | zero => rfl
    | succ n => simpa [updateNth] using ih n (by simpa using h)

theorem updateNth_get?_ne (l : List α) (n m : Nat) (v : α) (h : m ≠ n) :
    (updateNth l n v).get? m = l.get? m := by
  induction l generalizing n m with
  | nil => rfl
  | cons a t ih =>
    cases n with
    | zero => cases m with
      | zero => exact absurd rfl h
      | succ m => rfl
    | succ n =>
      cases m with
      | zero => rfl
      | succ m => simpa [updateNth] using ih n m (by omega)

theorem updateNth_updateNth (l : List α) (n : Nat) (v w : α) :
    updateNth (updateNth l n v) n w = updateNth l n w := by
  induction l generalizing n with
  | nil => rfl
  | cons a t ih =>
    cases n with
    | zero => rfl
    | succ n => simp [updateNth, ih]

theorem updateNth_append_length (xs ys : List α) (v : α) :
    updateNth (xs ++ ys) xs.length v = xs ++ updateNth ys 0 v := by
  induction xs with
  | nil => rfl
  | cons a t ih => simp [updateNth, ih]

theorem getD_eq_get? (l : List α) (n : Nat) (d : α) :
    l.getD n d = (l.get? n).getD d :=
  rfl

theorem map_ext (f g : α → β) (l : List α) (h : ∀ a, f a = g a) :
    l.map f = l.map g := by
  induction l with
  | nil => rfl
  | cons a t ih => simp [h a, ih]

theorem except_bind_ok (a : α) (f : α → Except ε β) :
    Except.bind (Except.ok a) f = f a :=
  rfl

/-! ## Streaming-state lemmas -/

theorem accumulateRows_headerProcessed (b : Bool) (s : StreamState)
    (rows : List TableRow) :
    (accumulateRows b s rows).headerProcessed = s.headerProcessed := by
  induction rows generalizing s with
  | nil => rfl
  | cons r rest ih =>
    by_cases h : r.cells = [] <;> simp [accumulateRows, h] at ih ⊢ <;>
      exact ih _

theorem accumulateRows_chunkNumber (b : Bool) (s : StreamState)
    (rows : List TableRow) :
    (accumulateRows b s rows).chunkNumber = s.chunkNumber := by
  induction rows generalizing s with
  | nil => rfl
  | cons r rest ih =>
    by_cases h : r.cells = [] <;> simp [accumulateRows, h] at ih ⊢ <;>
      exact ih _

theorem accumulateRows_rowCount_false (s : StreamState) (rows : List TableRow) :
    (accumulateRows false s rows).rowCount = s.rowCount := by
  induction rows generalizing s with
  | nil => rfl
  | cons r rest ih =>
    by_cases h : r.cells = [] <;> simp [accumulateRows, h] at ih ⊢ <;>
      exact ih _

theorem accumulateRows_single (b : Bool) (s : StreamState) (row : TableRow)
    (h : row.cells ≠ []) :
    accumulateRows b s [row] =
      { s with allRows := s.allRows ++ [row]
             , maxCols := max s.maxCols row.cells.length
             , rowCount := if b then s.rowCount + 1 else s.rowCount } := by
  simp [accumulateRows, h]

/-! ## C3, C7, C9, C10 -/

/-- C3 (code-bug evidence): a present but non-numeric `colspan`/`rowspan`
attribute is stored as JavaScript `NaN` (`parseInt('abc')`), *not*
normalized to `1` as the specification requires; only an absent attribute
falls back to `'1'`. -/
theorem parsedSpan_nonNumeric_is_NaN :
    parsedSpan (some "abc") = none ∧
    parsedSpan (some "abc") ≠ some 1 ∧
    parsedSpan none = some 1 := by
  refine ⟨by decide, by decide, by decide⟩

/-- C7: with no header processed, `writeRow` fails with the
header-must-be-processed-first condition and `finalize` fails with the
no-header-data-processed condition; both return `Except.error`, so no
state transition and no output is produced. -/
theorem stream_requires_header (opts : StreamOptions) (s : StreamState)
    (parsedRows : List TableRow) (h : s.headerProcessed = false) :
    writeRow opts s parsedRows =
      Except.error "Header must be processed before writing rows" ∧
    finalize s = Except.error "No header data processed" := by
  constructor <;> simp [writeRow, finalize, h]

/-- Witness for C7 at the freshly created processor state. -/
theorem stream_requires_header_witness :
    initialStreamState.headerProcessed = false ∧
    (writeRow {} initialStreamState [] =
       Except.error "Header must be processed before writing rows" ∧
     finalize initialStreamState = Except.error "No header data processed") :=
  ⟨rfl, stream_requires_header {} initialStreamState [] rfl⟩

/-- C10: after a successful first `writeHeader`, a second call fails with
"Header already processed", and the failed call leaves the accumulated
state (rows, maxCols, row count) unchanged. -/
theorem writeHeader_second_call_rejected (h1 h2 : List TableRow)
    (s1 : StreamState)
    (h : writeHeader initialStreamState h1 = Except.ok s1) :
    writeHeader s1 h2 = Except.error "Header already processed" ∧
    applyWriteHeader s1 h2 = s1 := by
  have h' : ({ accumulateRows false initialStreamState h1 with
                headerProcessed := true } : StreamState) = s1 := by
    simpa [writeHeader, initialStreamState] using h
  subst h'
  constructor
  · simp [writeHeader]
  · simp [applyWriteHeader, writeHeader]

/-- Witness for C10: two consecutive header writes on a fresh processor. -/
theorem writeHeader_second_call_rejected_witness :
    writeHeader initialStreamState [] =
      Except.ok { initialStreamState with headerProcessed := true } ∧
    (writeHeader { initialStreamState with headerProcessed := true } [] =
       Except.error "Header already processed" ∧
     applyWriteHeader { initialStreamState with headerProcessed := true } [] =
       { initialStreamState with headerProcessed := true }) :=
  ⟨rfl, writeHeader_second_call_rejected [] []
          { initialStreamState with headerProcessed := true } rfl⟩

/-- C9 (amended): after the header, a single-row `writeRow` call fires
`onChunk` exactly when the new accumulated row count is a multiple of the
chunk size, while `writeChunk` fires `onChunk` exactly once per call,
regardless of any chunk-size boundary. -/
theorem chunk_callback_behavior (opts : StreamOptions) (s : StreamState)
    (parsedRows : List TableRow) (row : TableRow)
    (hh : s.headerProcessed = true) (hc : row.cells ≠ []) :
    (writeChunk s parsedRows).toOption.map (fun p => p.2.length) = some 1 ∧
    (writeRow opts s [row]).toOption.map (fun p => p.2) =
      some (if (s.rowCount + 1) % resolveChunkSize opts = 0
            then [(s.chunkNumber + 1, s.rowCount + 1)] else []) := by
  constructor
  · simp [writeChunk, hh, Except.toOption]
  · rw [writeRow, accumulateRows_single true s row hc]
    simp only [hh]
    by_cases hmod : (s.rowCount + 1) % resolveChunkSize opts = 0 <;>
      simp [hmod, Except.toOption]

/-- Witness for C9's amended statement: one `writeChunk` and one boundary
`writeRow` (chunk size 1, so every row is a boundary) from a post-header
state. -/
theorem chunk_callback_behavior_witness :
    ({ initialStreamState with headerProcessed := true } : StreamState).headerProcessed = true ∧
    (⟨[⟨"1", 1, 1, false, none⟩]⟩ : TableRow).cells ≠ [] ∧
    ((writeChunk { initialStreamState with headerProcessed := true }
        [⟨[⟨"1", 1, 1, false, none⟩]⟩]).toOption.map (fun p => p.2.length) = some 1 ∧
     (writeRow { chunkSize := some 1 }
        { initialStreamState with headerProcessed := true }
        [⟨[⟨"1", 1, 1, false, none⟩]⟩]).toOption.map (fun p => p.2) =
       some (if (0 + 1) % resolveChunkSize { chunkSize := some 1 } = 0
             then [(0 + 1, 0 + 1)] else [])) :=
  ⟨rfl, by decide,
   chunk_callback_behavior { chunkSize := some 1 }
     { initialStreamState with headerProcessed := true }
     [⟨[⟨"1", 1, 1, false, none⟩]⟩] ⟨[⟨"1", 1, 1, false, none⟩]⟩ rfl (by decide)⟩

/-- C9 (counterexample to the claim as stated): with the default chunk
size 1000, a `writeChunk` call carrying a single row fires `onChunk` at
accumulated row count 1, which is not a chunk-size boundary. -/
theorem chunk_callback_off_boundary :
    (writeChunk { initialStreamState with headerProcessed := true }
       [⟨[⟨"1", 1, 1, false, none⟩]⟩]).toOption.map (fun p => p.2) =
      some [(1, 1)] ∧
    1 % resolveChunkSize {} ≠ 0 := by
  constructor <;> decide

/-! ## C5: column widths -/

theorem widthLoop_eq_sampledMax (sd : List (List String)) (c : Nat) :
    ∀ (n : Nat), n ≤ sd.length → ∀ (m0 : Nat),
    (List.range n).foldl (fun m rowIndex =>
      match sd.get? rowIndex with
      | some row =>
        match row.get? c with
        | some v => if v ≠ "" then max m v.length else m
        | none => m
      | none => m) m0
    = ((sd.take n).map (fun row => (row.getD c "").length)).foldl max m0 := by
  intro n
  induction n with
  | zero => intro _ m0; rfl
  | succ n ih =>
    intro hn m0
    have hn' : n ≤ sd.length := by omega
    have hlt : n < sd.length := by omega
    obtain ⟨row, hrow⟩ : ∃ row, sd.get? n = some row := by
      cases h : sd.get? n with
      | none => exact absurd (List.get?_eq_none.mp h) (by omega)
      | some row => exact ⟨row, rfl⟩
    rw [List.range_succ, List.foldl_append, ih hn' m0]
    have htake : sd.take (n + 1) = sd.take n ++ [row] := by
      rw [List.take_succ]
      have : sd[n]? = some row := by
        simpa [← List.get?_eq_getElem?] using hrow
      simp [this]
    rw [htake, List.map_append, List.foldl_append]
    simp only [List.foldl_cons, List.foldl_nil, List.map_cons, List.map_nil, hrow]
    cases hv : row.get? c with
    | none =>
      have hgd : row.getD c "" = "" := by rw [getD_eq_get?, hv]; rfl
      rw [hgd]
      simp [hv]
    | some v =>
      have hgd : row.getD c "" = v := by rw [getD_eq_get?, hv]; rfl
      rw [hgd]
      by_cases hne : v = ""
      · subst hne
        simp [hv]
      · simp [hv, hne]

/-- C5 (amended): on *both* output paths, every column width is the
sampled-and-clamped value `min (max (maxLen + 2) 10) 50`, where `maxLen`
is the longest content among the first `min 1000 (row count)` rows of the
column — the full path is neither unclamped nor scanned beyond the
1000-row sample. -/
theorem column_width_formula (simpleData : List (List String)) (maxCols c : Nat)
    (h : c < maxCols) :
    (calculateOptimizedColumnWidths simpleData maxCols).get? c =
      some (min (max (sampledColMaxLen simpleData c + 2) 10) 50) := by
  simp only [calculateOptimizedColumnWidths]
  rw [List.get?_map, List.get?_range h]
  simp only [Option.map_some']
  congr 1
  rw [widthLoop_eq_sampledMax simpleData c (min 1000 simpleData.length)
        (Nat.min_le_right 1000 simpleData.length) 0]
  rfl

/-- Witness for C5's amended statement on the 1×1 grid `[["x"]]`. -/
theorem column_width_formula_witness :
    0 < 1 ∧
    (calculateOptimizedColumnWidths [["x"]] 1).get? 0 =
      some (min (max (sampledColMaxLen [["x"]] 0 + 2) 10) 50) :=
  ⟨by decide, column_width_formula [["x"]] 1 0 (by decide)⟩

/-- C5 (counterexample to the claim as stated): on the full
(non-large-table) path, the 1×1 table holding `x` gets column width 10
(the clamp's lower bound), not the unclamped `length + 2 = 3` the claim
asserts for that path. -/
theorem full_path_width_clamped :
    fullPathColWidths singleCellTable = [10] ∧
    fullPathColWidths singleCellTable ≠ [3] := by
  constructor <;> decide

/-! ## C4: styling on the large-table path -/

theorem largeRows_length (m : Nat) : ∀ (i : Nat) (rs : List TableRow),
    (largeRows m i rs).length = rs.length := by
  intro i rs
  induction rs generalizing i with
  | nil => rfl
  | cons r rest ih => simp [largeRows, ih]

theorem convertLargeData_fst_length (td : TableData) :
    (convertLargeData td).1.length = td.rows.length := by
  simp [convertLargeData, largeRows_length]

/-- C4 (code-bug evidence): for a 10001-row table the conversion takes
the large-table path, yet the styling pass assigns a style object to row
10000 — far beyond the first ~10 rows — because `convertLargeTable`
invokes the full-range `applyStyling` (line 452); the documented
`applyMinimalStyling` (defined but never called) would leave that row
without a style object. -/
theorem large_table_styles_all_rows :
    usesLargeTablePath singleColLargeTable = true ∧
    ((convertLargeTable singleColLargeTable).styleAt 10000 0).isSome = true ∧
    applyMinimalStyling (convertLargeTable singleColLargeTable).simpleData 10000 0 = none := by
  have hrows : singleColLargeTable.rows.length = 10001 := by
    show (List.replicate 10001 (⟨[plainCell "v"]⟩ : TableRow)).length = 10001
    exact List.length_replicate _ _
  have hlen : (convertLargeData singleColLargeTable).1.length = 10001 := by
    rw [convertLargeData_fst_length, hrows]
  refine ⟨?_, ?_, ?_⟩
  · simp [usesLargeTablePath, LARGE_TABLE_THRESHOLD, hrows]
  · have h1 : 10000 < sheetNumRows (convertLargeData singleColLargeTable).1 := by
      simp [sheetNumRows, hlen]
    have h2 : 0 < sheetNumCols (convertLargeData singleColLargeTable).1 :=
      Nat.lt_of_lt_of_le Nat.zero_lt_one (Nat.le_max_right _ _)
    simp only [convertLargeTable, applyStyling]
    rw [if_pos ⟨h1, h2⟩]
    rfl
  · simp only [applyMinimalStyling]
    rw [if_neg]
    intro hcond
    have h10 := Nat.min_le_left 10
      (sheetNumRows (convertLargeTable singleColLargeTable).simpleData - 1)
    omega

/-! ## C2: merge count -/

theorem placeCell_dropped_le (m i : Nat) (st : RowState) (c : TableCell) :
    st.dropped ≤ (placeCell m i st c).dropped := by
  simp only [placeCell]
  split <;> dsimp only <;> omega

theorem foldl_placeCell_dropped_le (m i : Nat) :
    ∀ (cells : List TableCell) (st : RowState),
    st.dropped ≤ (cells.foldl (placeCell m i) st).dropped := by
  intro cells
  induction cells with
  | nil => intro st; exact Nat.le_refl _
  | cons c rest ih =>
    intro st
    exact Nat.le_trans (placeCell_dropped_le m i st c) (ih (placeCell m i st c))

theorem placeCell_merges_of_eq_dropped (m i : Nat) (st : RowState) (c : TableCell)
    (h : (placeCell m i st c).dropped = st.dropped) :
    (placeCell m i st c).merges.length =
      st.merges.length + (if isSpanning c then 1 else 0) := by
  revert h
  simp only [placeCell]
  split
  · intro h
    dsimp only at h
    omega
  · intro _
    dsimp only
    split
    · rename_i hsp
      simp [isSpanning, hsp]
    · rename_i hsp
      simp [isSpanning, hsp]

theorem foldl_placeCell_merges (m i : Nat) :
    ∀ (cells : List TableCell) (st : RowState),
    (cells.foldl (placeCell m i) st).dropped = st.dropped →
    (cells.foldl (placeCell m i) st).merges.length =
      st.merges.length + cells.countP isSpanning := by
  intro cells
  induction cells with
  | nil => intro st _; simp
  | cons c rest ih =>
    intro st h
    simp only [List.foldl_cons] at h ⊢
    have h1 : (placeCell m i st c).dropped = st.dropped := by
      have ha := placeCell_dropped_le m i st c
      have hb := foldl_placeCell_dropped_le m i rest (placeCell m i st c)
      omega
    rw [ih (placeCell m i st c) (h.trans h1.symm),
        placeCell_merges_of_eq_dropped m i st c h1, List.countP_cons]
    omega

theorem processRow_dropped_le (m : Nat) (st : GridState) (i : Nat) (r : TableRow) :
    st.dropped ≤ (processRow m st i r).dropped := by
  simp only [processRow]
  exact foldl_placeCell_dropped_le m i r.cells ⟨st.g, 0, st.merges, st.dropped⟩

theorem processRow_merges (m : Nat) (st : GridState) (i : Nat) (r : TableRow)
    (h : (processRow m st i r).dropped = st.dropped) :
    (processRow m st i r).merges.length =
      st.merges.length + r.cells.countP isSpanning := by
  simp only [processRow] at h ⊢
  exact foldl_placeCell_merges m i r.cells ⟨st.g, 0, st.merges, st.dropped⟩ h

theorem layoutRows_dropped_le (m : Nat) :
    ∀ (rs : List TableRow) (i : Nat) (st : GridState),
    st.dropped ≤ (layoutRows m i st rs).dropped := by
  intro rs
  induction rs with
  | nil => intro i st; exact Nat.le_refl _
  | cons r rest ih =>
    intro i st
    exact Nat.le_trans (processRow_dropped_le m st i r) (ih (i + 1) _)

theorem layoutRows_merges (m : Nat) :
    ∀ (rs : List TableRow) (i : Nat) (st : GridState),
    (layoutRows m i st rs).dropped = st.dropped →
    (layoutRows m i st rs).merges.length =
      st.merges.length + (rs.map (fun r => r.cells.countP isSpanning)).sum := by
  intro rs
  induction rs with
  | nil => intro i st _; simp [layoutRows]
  | cons r rest ih =>
    intro i st h
    simp only [layoutRows] at h ⊢
    have h1 : (processRow m st i r).dropped = st.dropped := by
      have ha := processRow_dropped_le m st i r
      have hb := layoutRows_dropped_le m rest (i + 1) (processRow m st i r)
      omega
    rw [ih (i + 1) (processRow m st i r) (h.trans h1.symm),
        processRow_merges m st i r h1]
    simp
    omega

/-- C2: when the grid layout engine drops no authored cell (the
well-formed case: no overlapping spans, spans fitting within the grid),
the number of emitted MergeRegions equals the number of authored cells
with colspan > 1 or rowspan > 1; in particular every cell with both spans
exactly 1 contributes no MergeRegion. -/
theorem merge_count_eq_spanning_count (td : TableData)
    (h : (createExcelData td).dropped = 0) :
    (createExcelData td).merges.length =
      (td.rows.map (fun r => r.cells.countP isSpanning)).sum := by
  simp only [createExcelData] at h ⊢
  rw [layoutRows_merges td.maxCols td.rows 0 _ (by exact h)]
  simp

/-- Witness for C2: a 2-column table with one `colspan="2"` cell and two
plain cells — one merge, matching the one spanning cell. -/
theorem merge_count_eq_spanning_count_witness :
    (createExcelData spanExampleTable).dropped = 0 ∧
    (createExcelData spanExampleTable).merges.length =
      (spanExampleTable.rows.map (fun r => r.cells.countP isSpanning)).sum :=
  ⟨by decide, merge_count_eq_spanning_count spanExampleTable (by decide)⟩

/-! ## C6: large-table merge tracking and row heights -/

theorem placeCellLarge_merges_mem (m i : Nat)
    (st : List String × Int × List MergeRegion) (c : TableCell) (mr : MergeRegion)
    (h : mr ∈ (placeCellLarge m i st c).2.2) :
    mr ∈ st.2.2 ∨ (mr.sr = (i : Int) ∧ i < 100) := by
  obtain ⟨rowData, col0, merges⟩ := st
  revert h
  simp only [placeCellLarge]
  split
  · exact Or.inl
  · dsimp only
    split
    · rename_i hc
      intro h
      rcases List.mem_append.mp h with h' | h'
      · exact Or.inl h'
      · simp only [List.mem_singleton] at h'
        subst h'
        exact Or.inr ⟨rfl, hc.1⟩
    · exact Or.inl

theorem foldl_placeCellLarge_merges_mem (m i : Nat) :
    ∀ (cells : List TableCell) (st : List String × Int × List MergeRegion)
      (mr : MergeRegion), mr ∈ (cells.foldl (placeCellLarge m i) st).2.2 →
      mr ∈ st.2.2 ∨ (mr.sr = (i : Int) ∧ i < 100) := by
  intro cells
  induction cells with
  | nil => intro st mr h; exact Or.inl h
  | cons c rest ih =>
    intro st mr h
    simp only [List.foldl_cons] at h
    rcases ih (placeCellLarge m i st c) mr h with h' | h'
    · exact placeCellLarge_merges_mem m i st c mr h'
    · exact Or.inr h'

theorem largeRowLayout_merges_mem (m i : Nat) (r : TableRow) (mr : MergeRegion)
    (h : mr ∈ (largeRowLayout m i r).2) :
    mr.sr = (i : Int) ∧ i < 100 := by
  have h' : mr ∈ (r.cells.foldl (placeCellLarge m i)
      (List.replicate m "", 0, [])).2.2 := h
  rcases foldl_placeCellLarge_merges_mem m i r.cells _ mr h' with h'' | h''
  · simp at h''
  · exact h''

theorem largeRows_merges_sr (m : Nat) :
    ∀ (rs : List TableRow) (i : Nat) (mr : MergeRegion),
    mr ∈ ((largeRows m i rs).map Prod.snd).flatten → mr.sr < 100 := by
  intro rs
  induction rs with
  | nil => intro i mr h; simp [largeRows] at h
  | cons r rest ih =>
    intro i mr h
    simp only [largeRows, List.map_cons, List.flatten_cons] at h
    rcases List.mem_append.mp h with h' | h'
    · have hh := largeRowLayout_merges_mem m i r mr h'
      rw [hh.1]
      exact_mod_cast hh.2
    · exact ih (i + 1) mr h'

/-- C6 (amended): a table above the 10000-row threshold routes through the
reduced-fidelity large-table path; the resulting worksheet carries no
row-height hints, and merge regions are emitted only for spanning cells
placed at a row index below 100 (so their number is bounded by the
spanning cells of the first 100 rows, which may exceed 100). -/
theorem large_table_reduced_fidelity (td : TableData)
    (h : LARGE_TABLE_THRESHOLD < td.rows.length) :
    usesLargeTablePath td = true ∧
    (convertLargeTable td).rowHeights = none ∧
    ∀ mr ∈ (convertLargeTable td).merges, mr.sr < 100 := by
  refine ⟨by simp [usesLargeTablePath, h], rfl, ?_⟩
  intro mr hmr
  have hm : (convertLargeTable td).merges =
      ((largeRows td.maxCols 0 td.rows).map Prod.snd).flatten := rfl
  rw [hm] at hmr
  exact largeRows_merges_sr td.maxCols td.rows 0 mr hmr

/-- Witness for C6's amended statement at the 15000-row example table. -/
theorem large_table_reduced_fidelity_witness :
    LARGE_TABLE_THRESHOLD < mergeHeavyLargeTable.rows.length ∧
    (usesLargeTablePath mergeHeavyLargeTable = true ∧
     (convertLargeTable mergeHeavyLargeTable).rowHeights = none ∧
     ∀ mr ∈ (convertLargeTable mergeHeavyLargeTable).merges, mr.sr < 100) :=
  ⟨by simp only [mergeHeavyLargeTable, LARGE_TABLE_THRESHOLD, List.length_append,
        List.length_replicate]; omega,
   large_table_reduced_fidelity mergeHeavyLargeTable
     (by simp only [mergeHeavyLargeTable, LARGE_TABLE_THRESHOLD, List.length_append,
           List.length_replicate]; omega)⟩

theorem placeCellLarge_span1_merges (m i : Nat)
    (st : List String × Int × List MergeRegion) (c : TableCell)
    (h : c.colspan = 1 ∧ c.rowspan = 1) :
    (placeCellLarge m i st c).2.2 = st.2.2 := by
  obtain ⟨rowData, col0, merges⟩ := st
  simp only [placeCellLarge]
  split
  · rfl
  · dsimp only
    rw [if_neg]
    rintro ⟨-, hsp | hsp⟩ <;> omega

theorem largeRowLayout_span1_merges (m i : Nat) (r : TableRow)
    (hr : ∀ c ∈ r.cells, c.colspan = 1 ∧ c.rowspan = 1) :
    (largeRowLayout m i r).2 = [] := by
  suffices h : ∀ (cells : List TableCell)
      (st : List String × Int × List MergeRegion),
      (∀ c ∈ cells, c.colspan = 1 ∧ c.rowspan = 1) →
      (cells.foldl (placeCellLarge m i) st).2.2 = st.2.2 by
    exact h r.cells (List.replicate m "", 0, []) hr
  intro cells
  induction cells with
  | nil => intro st _; rfl
  | cons c rest ih =>
    intro st hc
    simp only [List.foldl_cons]
    rw [ih (placeCellLarge m i st c) (fun x hx => hc x (List.mem_cons_of_mem c hx)),
        placeCellLarge_span1_merges m i st c (hc c (List.mem_cons_self c rest))]

theorem spanRow_layout_len (i : Nat) (h : i < 100) :
    (largeRowLayout 4 i doubleSpanRow).2.length = 2 := by
  simp [largeRowLayout, doubleSpanRow, placeCellLarge, skipOccupiedStr,
        skipOccupiedStrAux, strOccupied, jsStrGet, updateNth, h]

theorem largeRows_append (m : Nat) :
    ∀ (xs ys : List TableRow) (i : Nat),
    largeRows m i (xs ++ ys) = largeRows m i xs ++ largeRows m (i + xs.length) ys := by
  intro xs
  induction xs with
  | nil => intro ys i; simp [largeRows]
  | cons x rest ih =>
    intro ys i
    simp only [List.cons_append, largeRows, List.length_cons, List.append_eq]
    rw [ih ys (i + 1)]
    have harith : i + 1 + rest.length = i + (rest.length + 1) := by omega
    rw [harith]

theorem largeRows_replicate_span1 (m : Nat) (r : TableRow)
    (hr : ∀ c ∈ r.cells, c.colspan = 1 ∧ c.rowspan = 1) :
    ∀ (n i : Nat), ((largeRows m i (List.replicate n r)).map Prod.snd).flatten = [] := by
  intro n
  induction n with
  | zero => intro i; rfl
  | succ n ih =>
    intro i
    simp only [List.replicate_succ, largeRows, List.map_cons, List.flatten_cons,
               largeRowLayout_span1_merges m i r hr, ih (i + 1), List.nil_append]

theorem largeRows_replicate_spanRow_len :
    ∀ (n i : Nat), i + n ≤ 100 →
    (((largeRows 4 i (List.replicate n doubleSpanRow)).map Prod.snd).flatten).length
      = 2 * n := by
  intro n
  induction n with
  | zero => intro i _; rfl
  | succ n ih =>
    intro i h
    simp only [List.replicate_succ, largeRows, List.map_cons, List.flatten_cons,
               List.length_append]
    rw [spanRow_layout_len i (by omega), ih (i + 1) (by omega)]
    omega

/-- C6 (counterexample to the claim as stated): a 15000-row table whose
first 100 rows each contain two spanning cells produces 200 tracked merge
regions on the large-table path — more than the "at most 100" the claim
asserts. -/
theorem large_table_merge_count_exceeds_100 :
    mergeHeavyLargeTable.rows.length = 15000 ∧
    usesLargeTablePath mergeHeavyLargeTable = true ∧
    (convertLargeTable mergeHeavyLargeTable).merges.length = 200 ∧
    ¬ (convertLargeTable mergeHeavyLargeTable).merges.length ≤ 100 := by
  have hlen : mergeHeavyLargeTable.rows.length = 15000 := by
    simp only [mergeHeavyLargeTable, List.length_append, List.length_replicate]
  have hcount : (convertLargeTable mergeHeavyLargeTable).merges.length = 200 := by
    have hm : (convertLargeTable mergeHeavyLargeTable).merges =
        ((largeRows 4 0 mergeHeavyLargeTable.rows).map Prod.snd).flatten := rfl
    rw [hm]
    have hrows : mergeHeavyLargeTable.rows =
        List.replicate 100 doubleSpanRow ++ List.replicate 14900 plainFourRow := rfl
    rw [hrows, largeRows_append, List.map_append, List.flatten_append,
        List.length_append, List.length_replicate]
    rw [largeRows_replicate_span1 4 plainFourRow (by decide) 14900 (0 + 100)]
    rw [largeRows_replicate_spanRow_len 100 0 (by omega)]
    rfl
  refine ⟨hlen, ?_, hcount, by omega⟩
  simp only [usesLargeTablePath, LARGE_TABLE_THRESHOLD, hlen]
  decide

/-! ## C8: streaming chunk events -/

theorem resolveChunkSize_pos (o : StreamOptions) : 0 < resolveChunkSize o := by
  obtain ⟨cs⟩ := o
  cases cs with
  | none => exact Nat.succ_pos _
  | some n => cases n <;> simp [resolveChunkSize]

theorem writeEvents_zero (cs r : Nat) : writeEvents cs r 0 = [] :=
  rfl

theorem writeEvents_succ (cs r n : Nat) :
    writeEvents cs r (n + 1) =
      (if (r + 1) % cs = 0 then [((r + 1) / cs, r + 1)] else []) ++
      writeEvents cs (r + 1) n := by
  unfold writeEvents
  rw [List.range_succ_eq_map, List.filterMap_cons, List.filterMap_map]
  have hfun : ((fun j => if (r + j + 1) % cs = 0
        then some ((r + j + 1) / cs, r + j + 1) else none) ∘ Nat.succ)
      = (fun j => if (r + 1 + j + 1) % cs = 0
        then some ((r + 1 + j + 1) / cs, r + 1 + j + 1) else none) := by
    funext j
    simp only [Function.comp_apply]
    have he : r + Nat.succ j + 1 = r + 1 + j + 1 := by omega
    rw [he]
  rw [hfun]
  by_cases h : (r + 1) % cs = 0 <;> simp [h]

theorem writeEvents_nil_of_no_boundary (cs : Nat) :
    ∀ (n r : Nat), (∀ j, j < n → (r + j + 1) % cs ≠ 0) → writeEvents cs r n = [] := by
  intro n
  induction n with
  | zero => intro r _; rfl
  | succ n ih =>
    intro r h
    rw [writeEvents_succ, if_neg (by simpa using h 0 (by omega))]
    simp only [List.nil_append]
    apply ih
    intro j hj
    have h' := h (j + 1) (by omega)
    have he : r + (j + 1) + 1 = r + 1 + j + 1 := by omega
    rw [he] at h'
    exact h'

theorem writeEvents_split (cs : Nat) :
    ∀ (a r b : Nat),
    writeEvents cs r (a + b) = writeEvents cs r a ++ writeEvents cs (r + a) b := by
  intro a
  induction a with
  | zero => intro r b; simp [writeEvents_zero]
  | succ a ih =>
    intro r b
    have h1 : a + 1 + b = (a + b) + 1 := by omega
    rw [h1, writeEvents_succ, writeEvents_succ, ih (r + 1) b, List.append_assoc]
    have h2 : r + 1 + a = r + (a + 1) := by omega
    rw [h2]

theorem writeEvents_2500 : writeEvents 1000 0 2500 = [(1, 1000), (2, 2000)] := by
  have h1 : writeEvents 1000 0 999 = [] :=
    writeEvents_nil_of_no_boundary 1000 999 0 (by intro j hj; omega)
  have h3 : writeEvents 1000 1000 999 = [] :=
    writeEvents_nil_of_no_boundary 1000 999 1000 (by intro j hj; omega)
  have h5 : writeEvents 1000 2000 500 = [] :=
    writeEvents_nil_of_no_boundary 1000 500 2000 (by intro j hj; omega)
  have h2 : writeEvents 1000 999 1 = [(1, 1000)] := by
    rw [show (1 : Nat) = 0 + 1 from rfl, writeEvents_succ]
    norm_num [writeEvents_zero]
  have h4 : writeEvents 1000 1999 1 = [(2, 2000)] := by
    rw [show (1 : Nat) = 0 + 1 from rfl, writeEvents_succ]
    norm_num [writeEvents_zero]
  have e : writeEvents 1000 0 2500 =
      writeEvents 1000 0 999 ++ (writeEvents 1000 999 1 ++
        (writeEvents 1000 1000 999 ++ (writeEvents 1000 1999 1 ++
          writeEvents 1000 2000 500))) := by
    rw [show (2500 : Nat) = 999 + (1 + (999 + (1 + 500))) by norm_num,
        writeEvents_split, writeEvents_split, writeEvents_split, writeEvents_split]
  rw [e, h1, h2, h3, h4, h5]
  simp

theorem writeRow_single_step (opts : StreamOptions) (s : StreamState) (r : TableRow)
    (hh : s.headerProcessed = true) (hc : r.cells ≠ []) :
    writeRow opts s [r] =
      Except.ok
        (if (s.rowCount + 1) % resolveChunkSize opts = 0 then
          ({ s with allRows := s.allRows ++ [r],
                    maxCols := max s.maxCols r.cells.length,
                    rowCount := s.rowCount + 1,
                    chunkNumber := s.chunkNumber + 1 },
           [(s.chunkNumber + 1, s.rowCount + 1)])
        else
          ({ s with allRows := s.allRows ++ [r],
                    maxCols := max s.maxCols r.cells.length,
                    rowCount := s.rowCount + 1 }, [])) := by
  rw [writeRow, accumulateRows_single true s r hc]
  simp only [hh]
  by_cases hmod : (s.rowCount + 1) % resolveChunkSize opts = 0 <;> simp [hmod]

theorem runWriteRows_singles (opts : StreamOptions) :
    ∀ (rows : List TableRow) (s : StreamState),
    s.headerProcessed = true →
    (∀ r ∈ rows, r.cells ≠ []) →
    s.chunkNumber = s.rowCount / resolveChunkSize opts →
    ∃ s', runWriteRows opts s (rows.map (fun r => [r])) =
            Except.ok (s', writeEvents (resolveChunkSize opts) s.rowCount rows.length) ∧
          s'.headerProcessed = true ∧
          s'.rowCount = s.rowCount + rows.length ∧
          s'.chunkNumber = s'.rowCount / resolveChunkSize opts := by
  intro rows
  induction rows with
  | nil =>
    intro s hh _ hinv
    exact ⟨s, by simp [runWriteRows, writeEvents_zero], hh, by simp, hinv⟩
  | cons r rest ih =>
    intro s hh hc hinv
    have hstep := writeRow_single_step opts s r hh (hc r (List.mem_cons_self r rest))
    by_cases hmod : (s.rowCount + 1) % resolveChunkSize opts = 0
    · rw [if_pos hmod] at hstep
      have hdiv : (s.rowCount + 1) / resolveChunkSize opts = s.chunkNumber + 1 := by
        rw [Nat.succ_div, if_pos (Nat.dvd_of_mod_eq_zero hmod), hinv]
      have hs1inv :
          ({ s with allRows := s.allRows ++ [r],
                    maxCols := max s.maxCols r.cells.length,
                    rowCount := s.rowCount + 1,
                    chunkNumber := s.chunkNumber + 1 } : StreamState).chunkNumber =
          ({ s with allRows := s.allRows ++ [r],
                    maxCols := max s.maxCols r.cells.length,
                    rowCount := s.rowCount + 1,
                    chunkNumber := s.chunkNumber + 1 } : StreamState).rowCount /
            resolveChunkSize opts := by
        show s.chunkNumber + 1 = (s.rowCount + 1) / resolveChunkSize opts
        rw [hdiv]
      obtain ⟨s', hrun, hh', hrc', hinv'⟩ :=
        ih _ (by exact hh) (fun x hx => hc x (List.mem_cons_of_mem r hx)) hs1inv
      refine ⟨s', ?_, hh', by simp at hrc' ⊢; omega, hinv'⟩
      rw [List.map_cons, runWriteRows, hstep, except_bind_ok]
      dsimp only
      rw [hrun, except_bind_ok]
      dsimp only
      simp only [List.length_cons]
      rw [writeEvents_succ, if_pos hmod, hdiv]
    · rw [if_neg hmod] at hstep
      have hdiv : (s.rowCount + 1) / resolveChunkSize opts = s.chunkNumber := by
        rw [Nat.succ_div, if_neg, Nat.add_zero, hinv]
        intro hd
        exact hmod (Nat.mod_eq_zero_of_dvd hd)
      have hs1inv :
          ({ s with allRows := s.allRows ++ [r],
                    maxCols := max s.maxCols r.cells.length,
                    rowCount := s.rowCount + 1 } : StreamState).chunkNumber =
          ({ s with allRows := s.allRows ++ [r],
                    maxCols := max s.maxCols r.cells.length,
                    rowCount := s.rowCount + 1 } : StreamState).rowCount /
            resolveChunkSize opts := by
        show s.chunkNumber = (s.rowCount + 1) / resolveChunkSize opts
        rw [hdiv]
      obtain ⟨s', hrun, hh', hrc', hinv'⟩ :=
        ih _ (by exact hh) (fun x hx => hc x (List.mem_cons_of_mem r hx)) hs1inv
      refine ⟨s', ?_, hh', by simp at hrc' ⊢; omega, hinv'⟩
      rw [List.map_cons, runWriteRows, hstep, except_bind_ok]
      dsimp only
      rw [hrun, except_bind_ok]
      dsimp only
      simp only [List.length_cons]
      rw [writeEvents_succ, if_neg hmod]

/-- C8: a streaming processor given a 1-row header and then 2500
single-row `writeRow` calls with chunk size 1000 fires `onChunk` exactly
twice — `(1, 1000)` and `(2, 2000)` — before `finalize`, and
`getProcessedRows` returns 2500 after the last write. -/
theorem stream_2500_rows_two_chunks (hdr rows : List TableRow)
    (s0 : StreamState)
    (h0 : writeHeader initialStreamState hdr = Except.ok s0)
    (hn : rows.length = 2500) (hc : ∀ r ∈ rows, r.cells ≠ []) :
    ∃ s', runWriteRows { chunkSize := some 1000 } s0 (rows.map (fun r => [r])) =
            Except.ok (s', [(1, 1000), (2, 2000)]) ∧
          getProcessedRows s' = 2500 := by
  have hs0 : ({ accumulateRows false initialStreamState hdr with
      headerProcessed := true } : StreamState) = s0 := by
    simpa [writeHeader, initialStreamState] using h0
  have hh : s0.headerProcessed = true := by rw [← hs0]
  have hrc : s0.rowCount = 0 := by
    rw [← hs0]
    show (accumulateRows false initialStreamState hdr).rowCount = 0
    rw [accumulateRows_rowCount_false]
    rfl
  have hcn : s0.chunkNumber = 0 := by
    rw [← hs0]
    show (accumulateRows false initialStreamState hdr).chunkNumber = 0
    rw [accumulateRows_chunkNumber]
    rfl
  have hinv : s0.chunkNumber = s0.rowCount / resolveChunkSize { chunkSize := some 1000 } := by
    rw [hrc, hcn]
    rfl
  obtain ⟨s', hrun, _, hrc', _⟩ :=
    runWriteRows_singles { chunkSize := some 1000 } rows s0 hh hc hinv
  rw [hrc, hn] at hrun
  have hres : resolveChunkSize { chunkSize := some 1000 } = 1000 := rfl
  rw [hres, writeEvents_2500] at hrun
  exact ⟨s', hrun, by rw [getProcessedRows, hrc', hrc, hn]⟩

/-- Witness for C8 with a concrete 1-row header and 2500 identical data
rows. -/
theorem stream_2500_rows_two_chunks_witness :
    ∃ s', runWriteRows { chunkSize := some 1000 }
            { headerProcessed := true, rowCount := 0, allRows := [headerRowEx],
              maxCols := 1, chunkNumber := 0 }
            ((List.replicate 2500 dataRowEx).map (fun r => [r])) =
          Except.ok (s', [(1, 1000), (2, 2000)]) ∧
          getProcessedRows s' = 2500 :=
  stream_2500_rows_two_chunks [headerRowEx] (List.replicate 2500 dataRowEx)
    { headerProcessed := true, rowCount := 0, allRows := [headerRowEx],
      maxCols := 1, chunkNumber := 0 }
    rfl (by rw [List.length_replicate]) (by
      intro r hr
      have h := List.eq_of_mem_replicate hr
      subst h
      decide)

/-! ## C1: span-free tables lay out as the plain text matrix -/

theorem skipOccupied_not_occupied (row : List Slot) (maxCols col : Int)
    (h : slotOccupied row col = false) :
    skipOccupied row maxCols col = col := by
  unfold skipOccupied
  cases hf : (maxCols - col).toNat with
  | zero => rfl
  | succ fuel => simp [skipOccupiedAux, h]

theorem get?_append_len (xs ys : List α) : (xs ++ ys).get? xs.length = ys.get? 0 := by
  induction xs with
  | nil => rfl
  | cons a t ih => simpa using ih

theorem foldl_placeCell_span1 (m i : Nat) :
    ∀ (cells : List TableCell) (done : List Slot) (g : List (List Slot))
      (merges : List MergeRegion) (dropped : Nat),
    (∀ c ∈ cells, c.colspan = 1 ∧ c.rowspan = 1) →
    i < g.length →
    g.get? i = some (done ++ List.replicate (m - done.length) Slot.empty) →
    done.length + cells.length ≤ m →
    cells.foldl (placeCell m i)
        ⟨g, ((done.length : Nat) : Int), merges, dropped⟩ =
      ⟨updateNth g i (done ++ cells.map toSlot ++
          List.replicate (m - done.length - cells.length) Slot.empty),
       ((done.length + cells.length : Nat) : Int), merges, dropped⟩ := by
  intro cells
  induction cells with
  | nil =>
    intro done g merges dropped _ hi hrow hlen
    simp only [List.foldl_nil, List.map_nil, List.length_nil, List.append_nil,
               Nat.sub_zero, Nat.add_zero]
    rw [updateNth_get?_self g i _ hrow]
  | cons c rest ih =>
    intro done g merges dropped hspan hi hrow hlen
    simp only [List.foldl_cons]
    have hc := hspan c (List.mem_cons_self c rest)
    have hrest : ∀ x ∈ rest, x.colspan = 1 ∧ x.rowspan = 1 :=
      fun x hx => hspan x (List.mem_cons_of_mem c hx)
    have hd : done.length < m := by
      simp only [List.length_cons] at hlen
      omega
    have hgetD : g.getD i [] = done ++ List.replicate (m - done.length) Slot.empty := by
      rw [getD_eq_get?, hrow]
      rfl
    have hrep : List.replicate (m - done.length) Slot.empty =
        Slot.empty :: List.replicate (m - done.length - 1) Slot.empty := by
      conv_lhs => rw [show m - done.length = (m - done.length - 1) + 1 by omega]
      rw [List.replicate_succ]
    have hslot : (done ++ List.replicate (m - done.length) Slot.empty).get? done.length
        = some Slot.empty := by
      rw [get?_append_len, hrep]
      rfl
    have hocc : slotOccupied (g.getD i []) ((done.length : Nat) : Int) = false := by
      rw [hgetD]
      unfold slotOccupied jsSlotGet
      rw [if_pos (by omega : (0 : Int) ≤ ((done.length : Nat) : Int)),
          Int.toNat_ofNat, hslot]
      simp
    have hnotle : ¬ ((m : Int) ≤ ((done.length : Nat) : Int)) := by
      omega
    have hplace : placeCell m i ⟨g, ((done.length : Nat) : Int), merges, dropped⟩ c =
        ⟨updateNth g i (done ++ toSlot c ::
            List.replicate (m - done.length - 1) Slot.empty),
         ((done.length + 1 : Nat) : Int), merges, dropped⟩ := by
      simp only [placeCell]
      rw [skipOccupied_not_occupied _ _ _ hocc, if_neg hnotle]
      have hmerge : ¬ (1 < c.colspan ∨ 1 < c.rowspan) := by
        rw [hc.1, hc.2]
        omega
      rw [if_neg hmerge]
      have hrange1 : List.range 1 = [0] := rfl
      have hfill : ∀ g0 : List (List Slot),
          fillPlaceholders g0 i ((done.length : Nat) : Int) c = g0 := by
        intro g0
        unfold fillPlaceholders
        simp only [hc.1, hc.2, Int.toNat_one, hrange1, List.foldl_cons,
                   List.foldl_nil]
        simp
      rw [hfill]
      have hset : setSlot g i ((done.length : Nat) : Int).toNat
          (Slot.cell c.content c.styles) =
          updateNth g i (done ++ toSlot c ::
            List.replicate (m - done.length - 1) Slot.empty) := by
        rw [setSlot, Int.toNat_ofNat, hgetD, hrep, updateNth_append_length]
        rfl
      rw [hset, hc.1]
      have hcol : ((done.length : Nat) : Int) + 1 = ((done.length + 1 : Nat) : Int) := by
        omega
      rw [hcol]
    rw [hplace]
    have hdone1 : (done ++ [toSlot c]).length = done.length + 1 := by
      simp
    have hget' : (updateNth g i (done ++ toSlot c ::
        List.replicate (m - done.length - 1) Slot.empty)).get? i =
        some ((done ++ [toSlot c]) ++
          List.replicate (m - (done ++ [toSlot c]).length) Slot.empty) := by
      rw [updateNth_get?_eq g i _ hi]
      have heq : done ++ toSlot c :: List.replicate (m - done.length - 1) Slot.empty =
          (done ++ [toSlot c]) ++
            List.replicate (m - (done ++ [toSlot c]).length) Slot.empty := by
        rw [List.append_assoc, List.singleton_append, hdone1,
            show m - done.length - 1 = m - (done.length + 1) by omega]
      rw [heq]
    have hlen' : (done ++ [toSlot c]).length + rest.length ≤ m := by
      have h2 : (c :: rest).length = rest.length + 1 := by simp
      omega
    have hdl : ((done ++ [toSlot c]).length : Int) = ((done.length + 1 : Nat) : Int) := by
      simp
    have := ih (done ++ [toSlot c])
      (updateNth g i (done ++ toSlot c ::
        List.replicate (m - done.length - 1) Slot.empty))
      merges dropped hrest (by rw [updateNth_length]; exact hi) hget' hlen'
    rw [hdl] at this
    rw [this, updateNth_updateNth]
    simp only [List.map_cons, List.length_cons, hdone1, List.append_assoc,
               List.singleton_append]
    have h1 : m - (done.length + 1) - rest.length =
        m - done.length - (rest.length + 1) := by
      omega
    have h2 : done.length + 1 + rest.length = done.length + (rest.length + 1) := by
      omega
    rw [h1, h2]

theorem layoutRows_span1 (m : Nat) :
    ∀ (rs : List TableRow) (done : List (List Slot)) (merges : List MergeRegion)
      (dropped : Nat),
    (∀ r ∈ rs, ∀ c ∈ r.cells, c.colspan = 1 ∧ c.rowspan = 1) →
    (∀ r ∈ rs, r.cells.length ≤ m) →
    layoutRows m done.length
        ⟨done ++ rs.map (fun _ => List.replicate m Slot.empty), merges, dropped⟩ rs =
      ⟨done ++ rs.map (rowSlots m), merges, dropped⟩ := by
  intro rs
  induction rs with
  | nil =>
    intro done merges dropped _ _
    simp [layoutRows]
  | cons r rest ih =>
    intro done merges dropped hspan hlen
    simp only [layoutRows, List.map_cons]
    have hg : (done ++ List.replicate m Slot.empty ::
        rest.map (fun _ => List.replicate m Slot.empty)).get? done.length =
        some ([] ++ List.replicate (m - ([] : List Slot).length) Slot.empty) := by
      rw [get?_append_len]
      simp
    have hilen : done.length < (done ++ List.replicate m Slot.empty ::
        rest.map (fun _ => List.replicate m Slot.empty)).length := by
      simp
    have hfold := foldl_placeCell_span1 m done.length r.cells []
      (done ++ List.replicate m Slot.empty ::
        rest.map (fun _ => List.replicate m Slot.empty))
      merges dropped (hspan r (List.mem_cons_self r rest)) hilen hg
      (by simpa using hlen r (List.mem_cons_self r rest))
    simp only [List.length_nil, Nat.cast_zero, List.nil_append, Nat.zero_add,
               Nat.sub_zero] at hfold
    have hproc : processRow m
        ⟨done ++ List.replicate m Slot.empty ::
          rest.map (fun _ => List.replicate m Slot.empty), merges, dropped⟩
        done.length r =
        ⟨done ++ rowSlots m r :: rest.map (fun _ => List.replicate m Slot.empty),
         merges, dropped⟩ := by
      simp only [processRow]
      rw [hfold]
      dsimp only
      have hupd : updateNth (done ++ List.replicate m Slot.empty ::
          rest.map (fun _ => List.replicate m Slot.empty)) done.length
          (r.cells.map toSlot ++ List.replicate (m - r.cells.length) Slot.empty) =
          done ++ rowSlots m r :: rest.map (fun _ => List.replicate m Slot.empty) := by
        rw [updateNth_append_length]
        rfl
      rw [hupd]
    rw [hproc]
    have hrw : done ++ rowSlots m r :: rest.map (fun _ => List.replicate m Slot.empty) =
        (done ++ [rowSlots m r]) ++ rest.map (fun _ => List.replicate m Slot.empty) := by
      simp
    have hlen1 : done.length + 1 = (done ++ [rowSlots m r]).length := by
      simp
    rw [hrw, hlen1,
        ih (done ++ [rowSlots m r]) merges dropped
          (fun x hx => hspan x (List.mem_cons_of_mem r hx))
          (fun x hx => hlen x (List.mem_cons_of_mem r hx))]
    simp

/-- C1: for every table with no spanning cells (all colspans and rowspans
equal to 1) and no styling, the grid produced by `createExcelData`
followed by `convertToSimpleData` is the plain text matrix of the source
rows (row-major, left-to-right; rows shorter than `maxCols` are padded
with the untouched empty fill), and no MergeRegion is emitted. -/
theorem noSpan_grid_is_text_matrix (td : TableData)
    (hspan : ∀ r ∈ td.rows, ∀ c ∈ r.cells, c.colspan = 1 ∧ c.rowspan = 1)
    (hsty : ∀ r ∈ td.rows, ∀ c ∈ r.cells, c.styles = none)
    (hlen : ∀ r ∈ td.rows, r.cells.length ≤ td.maxCols) :
    convertToSimpleData (createExcelData td).g =
      td.rows.map (fun r => r.cells.map (fun c => c.content) ++
        List.replicate (td.maxCols - r.cells.length) "") ∧
    (createExcelData td).merges = [] := by
  simp only [createExcelData]
  have h := layoutRows_span1 td.maxCols td.rows [] [] 0 hspan hlen
  simp only [List.nil_append, List.length_nil] at h
  rw [h]
  constructor
  · simp only [convertToSimpleData, List.map_map]
    refine map_ext _ _ td.rows (fun r => ?_)
    simp only [Function.comp_apply, rowSlots, List.map_append, List.map_map,
               List.map_replicate]
    rfl
  · rfl

/-- Witness for C1: the specification's Scenario 1 table yields the grid
`[["Name", "Age"], ["John", "30"]]` and zero merges. -/
theorem noSpan_grid_is_text_matrix_witness :
    (∀ r ∈ scenario1Table.rows, ∀ c ∈ r.cells, c.colspan = 1 ∧ c.rowspan = 1) ∧
    convertToSimpleData (createExcelData scenario1Table).g =
      [["Name", "Age"], ["John", "30"]] ∧
    (createExcelData scenario1Table).merges = [] := by
  refine ⟨by decide, ?_,
    (noSpan_grid_is_text_matrix scenario1Table (by decide) (by decide) (by decide)).2⟩
  have h := (noSpan_grid_is_text_matrix scenario1Table
    (by decide) (by decide) (by decide)).1
  rw [h]
  decide

end TableToXlsx
